import Mathlib

/-!
A verification development for the RA-Company database repository: a shallow
embedding of its differential SQL update builder (FieldValue), its array
literal rendering helpers (ToStr, ArrayToString, StringsToString), the Redis
client startup/dispatch and script-based conditional push, the PostgreSQL
transactional Update/Delete wrappers and the ClickHouse Update wrapper,
together with theorems settling the specified properties.

Go strings are modelled as Lean String, machine integers as Nat/Int (the
operations embedded here never overflow: they only compare and print),
fallible driver calls as Except values, and mutable receivers as explicit
state passing.
-/

set_option linter.unusedVariables false

/-- The single-quote character (code point 39). -/
def sqChar : Char := '\x27'

/-- Alias for the root string type, used in signatures inside the
FieldValue namespace where the method named after the Go String setter
shadows the type name. -/
abbrev Str : Type := String

/-- Embedding of database.ToStr / postgres.ToStr: strings.Replace of every
single quote by two single quotes. Since the pattern is the single
character, the replacement acts independently on each character. -/
def ToStr (s : String) : String :=
  String.mk (List.flatten (s.data.map (fun c => if c = sqChar then [sqChar, sqChar] else [c])))

/-- Embedding of Go strings.Join (and fmt joining with a separator). -/
def joinWith (sep : String) : List String → String
  | [] => ""
  | x :: xs => xs.foldl (fun acc a => acc ++ sep ++ a) x

/-- Embedding of Go strings.Contains(s, comma-string): the separator is a
single character, so containment is character membership. -/
def containsComma (s : String) : Bool := s.data.contains ','

/-- Character-level worker for splitComma. -/
def splitCommaChars : List Char → List (List Char)
  | [] => [[]]
  | c :: rest =>
    match splitCommaChars rest with
    | [] => [[]]
    | g :: gs => if c = ',' then [] :: g :: gs else (c :: g) :: gs

/-- Embedding of Go strings.Split(s, comma-string). -/
def splitComma (s : String) : List String :=
  (splitCommaChars s.data).map (fun l => String.mk l)

/-- Left-pad a decimal rendering with zeros to the given width. -/
def padZ (w n : Nat) : String :=
  let s := toString n
  if s.length < w then String.mk (List.replicate (w - s.length) '0') ++ s else s

/-- Model of Go time.Time: wall-clock nanoseconds since 0001-01-01T00:00:00
UTC together with a location name. Inequality of two time.Time values in Go
is structural, which the derived equality mirrors. -/
structure GoTime where
  wall : Nat
  loc : String
  deriving DecidableEq

/-- Embedding of time.Time.UTC(): keeps the instant, sets the location. -/
def GoTime.UTC (t : GoTime) : GoTime := { t with loc := "UTC" }

/-- The zero time.Time value (instant zero, which Go reports in UTC). -/
def zeroTime : GoTime := ⟨0, "UTC"⟩

/-- Civil date from a day count measured from 0001-01-01 (proleptic
Gregorian), returning (year, month, day). -/
def civilFromDays (days : Nat) : Nat × Nat × Nat :=
  let z := days + 306
  let era := z / 146097
  let doe := z % 146097
  let yoe := (doe - doe / 1460 + doe / 36524 - doe / 146096) / 365
  let y := yoe + era * 400
  let doy := doe - (365 * yoe + yoe / 4 - yoe / 100)
  let mp := (5 * doy + 2) / 153
  let d := doy - (153 * mp + 2) / 5 + 1
  let m := if mp < 10 then mp + 3 else mp - 9
  (if m ≤ 2 then y + 1 else y, m, d)

/-- The fractional-second part of the RFC3339Nano layout: empty when the
nanosecond count is zero, otherwise a dot followed by nine digits with
trailing zeros removed. -/
def fracNanos (n : Nat) : String :=
  if n = 0 then "" else
    "." ++ String.mk (((padZ 9 n).data.reverse.dropWhile (fun c => c = '0')).reverse)

/-- Embedding of time.Time.Format(time.RFC3339Nano) for a UTC time (the
repository only formats after calling UTC(), so the offset is the Z
designator). -/
def GoTime.format3339Nano (t : GoTime) : String :=
  let totalSecs := t.wall / 1000000000
  let ns := t.wall % 1000000000
  let ymd := civilFromDays (totalSecs / 86400)
  let rem := totalSecs % 86400
  padZ 4 ymd.1 ++ "-" ++ padZ 2 ymd.2.1 ++ "-" ++ padZ 2 ymd.2.2 ++ "T" ++
    padZ 2 (rem / 3600) ++ ":" ++ padZ 2 ((rem % 3600) / 60) ++ ":" ++
    padZ 2 (rem % 60) ++ fracNanos ns ++ "Z"

/-- The error vocabulary of the repository and of the wrapped drivers. -/
inductive GoErr where
  | redisNil
  | listNotEmpty
  | groupExists
  | incorrectRequest
  | other (msg : String)
  deriving DecidableEq

/-- redis.ErrorListIsNotEmpty, the sentinel returned by SinglePush. -/
def ErrorListIsNotEmpty : GoErr := GoErr.listNotEmpty

/-- database.ErrorIncorrectRequest, the sentinel for a wrong command tag. -/
def ErrorIncorrectRequest : GoErr := GoErr.incorrectRequest

/-- The Go element types of the numeric slices the builder renders. -/
inductive IntTy where
  | i8
  | i16
  | i32
  | i64
  deriving DecidableEq

/-- The reflect.TypeOf name of the corresponding Go slice type. -/
def IntTy.goName : IntTy → String
  | .i8 => "[]int8"
  | .i16 => "[]int16"
  | .i32 => "[]int32"
  | .i64 => "[]int64"

/-- Model of the dynamic values fed to database.ArrayToString: string
slices and numeric slices (with a none payload for a typed nil slice), a
plain int as a representative non-slice value, and a map from strings to
int slices as a representative non-slice value whose reflect type name
contains a bracket pair. -/
inductive GoVal where
  | goStrSlice (xs : Option (List String))
  | goIntSlice (ty : IntTy) (xs : Option (List Int))
  | goInt (n : Int)
  | goMapStrIntSlice (pairs : Option (List (String × List Int)))
  deriving DecidableEq

/-- reflect.TypeOf(v).String() for the modelled values. -/
def GoVal.tyName : GoVal → String
  | .goStrSlice _ => "[]string"
  | .goIntSlice ty _ => ty.goName
  | .goInt _ => "int"
  | .goMapStrIntSlice _ => "map[string][]int"

/-- json.Marshal of a Go int slice. -/
def jsonIntList (xs : List Int) : String :=
  "[" ++ joinWith "," (xs.map (fun n => toString n)) ++ "]"

/-- json.Marshal for the modelled values: nil slices and nil maps marshal
to null, int slices to bracketed decimal lists, maps to JSON objects (the
modelled maps are used with at most one key, so Go map-key ordering is not
a concern). The string-slice case never reaches the JSON branch of
ArrayToString; it is included for totality with plain quoting. -/
def GoVal.jsonOf : GoVal → String
  | .goStrSlice none => "null"
  | .goStrSlice (some xs) => "[" ++ joinWith "," (xs.map (fun s => "\"" ++ s ++ "\"")) ++ "]"
  | .goIntSlice _ none => "null"
  | .goIntSlice _ (some xs) => jsonIntList xs
  | .goInt n => toString n
  | .goMapStrIntSlice none => "null"
  | .goMapStrIntSlice (some ps) =>
      "\x7b" ++ joinWith "," (ps.map (fun p => "\"" ++ p.1 ++ "\":" ++ jsonIntList p.2)) ++ "\x7d"

/-- The type assertion v.([]string); only reached when the type name is
the string-slice name. -/
def GoVal.strsOf : GoVal → List String
  | .goStrSlice (some xs) => xs
  | _ => []

/-- Whether a character list contains an adjacent open-close bracket pair,
embedding strings.Index(str, bracket-pair) different from -1. -/
def hasEmptyBrackets : List Char → Bool
  | '[' :: ']' :: _ => true
  | _ :: rest => hasEmptyBrackets rest
  | [] => false

/-- Embedding of database.StringsToString together with its in-place
mutation of the argument slice: the first component is the returned
literal, the second is the final state of the caller visible backing
array (each element overwritten by its ToStr form when the slice is
non-empty). -/
def StringsToStringMut (arr : List String) : String × List String :=
  if arr.length = 0 then ("[]", arr)
  else
    let arr2 := arr.map ToStr
    ("[\x27" ++ joinWith "\x27,\x27" arr2 ++ "\x27]", arr2)

/-- The returned literal of database.StringsToString. -/
def StringsToString (arr : List String) : String := (StringsToStringMut arr).1

/-- Embedding of database.ArrayToString: none models the untyped nil
interface; otherwise the reflect type name is tested for a bracket pair,
string slices are delegated to StringsToString, and everything else is
marshalled to JSON with null mapped to the empty-array literal. -/
def ArrayToString (v : Option GoVal) : String :=
  match v with
  | none => "[]"
  | some g =>
    if hasEmptyBrackets g.tyName.data = false then "[]"
    else if g.tyName = "[]string" then StringsToString g.strsOf
    else if g.jsonOf = "null" then "[]"
    else g.jsonOf

/-- Embedding of postgres.FieldValue: the accumulator of changed column
names and their pre-rendered SQL literal values. -/
structure FieldValue where
  Fields : List String
  Values : List String
  deriving DecidableEq

/-- FieldValue.AddString: appends the field name and the single-quoted,
quote-escaped string literal. -/
def FieldValue.AddString (dst : FieldValue) (is field : Str) : FieldValue :=
  { dst with Fields := dst.Fields ++ [field],
             Values := dst.Values ++ ["\x27" ++ ToStr is ++ "\x27"] }

/-- FieldValue.String: appends via AddString only when the values differ. -/
def FieldValue.String (dst : FieldValue) (was is field : Str) : FieldValue :=
  if was ≠ is then dst.AddString is field else dst

/-- FieldValue.AddInt64: appends the field name and the decimal literal. -/
def FieldValue.AddInt64 (dst : FieldValue) (is : Int) (field : Str) : FieldValue :=
  { dst with Fields := dst.Fields ++ [field],
             Values := dst.Values ++ [toString is] }

/-- FieldValue.AddUInt64: appends the field name and the decimal literal. -/
def FieldValue.AddUInt64 (dst : FieldValue) (is : Nat) (field : Str) : FieldValue :=
  { dst with Fields := dst.Fields ++ [field],
             Values := dst.Values ++ [toString is] }

/-- FieldValue.Int64: appends via AddInt64 only when the values differ. -/
def FieldValue.Int64 (dst : FieldValue) (was is : Int) (field : Str) : FieldValue :=
  if was ≠ is then dst.AddInt64 is field else dst

/-- FieldValue.UInt8: delegates to Int64 on the int64 conversions. -/
def FieldValue.UInt8 (dst : FieldValue) (was is : Nat) (field : Str) : FieldValue :=
  dst.Int64 (Int.ofNat was) (Int.ofNat is) field

/-- FieldValue.UInt16: delegates to Int64 on the int64 conversions. -/
def FieldValue.UInt16 (dst : FieldValue) (was is : Nat) (field : Str) : FieldValue :=
  dst.Int64 (Int.ofNat was) (Int.ofNat is) field

/-- FieldValue.UInt32: delegates to Int64 on the int64 conversions. -/
def FieldValue.UInt32 (dst : FieldValue) (was is : Nat) (field : Str) : FieldValue :=
  dst.Int64 (Int.ofNat was) (Int.ofNat is) field

/-- FieldValue.UInt64: appends via AddUInt64 only when the values differ. -/
def FieldValue.UInt64 (dst : FieldValue) (was is : Nat) (field : Str) : FieldValue :=
  if was ≠ is then dst.AddUInt64 is field else dst

/-- FieldValue.Int8: appends via AddInt64 only when the values differ. -/
def FieldValue.Int8 (dst : FieldValue) (was is : Int) (field : Str) : FieldValue :=
  if was ≠ is then dst.AddInt64 is field else dst

/-- FieldValue.Int16: appends via AddInt64 only when the values differ. -/
def FieldValue.Int16 (dst : FieldValue) (was is : Int) (field : Str) : FieldValue :=
  if was ≠ is then dst.AddInt64 is field else dst

/-- FieldValue.Int32: appends via AddInt64 only when the values differ. -/
def FieldValue.Int32 (dst : FieldValue) (was is : Int) (field : Str) : FieldValue :=
  if was ≠ is then dst.AddInt64 is field else dst

/-- FieldValue.AddBool: appends the field name and true or false. -/
def FieldValue.AddBool (dst : FieldValue) (is : Bool) (field : Str) : FieldValue :=
  { dst with Fields := dst.Fields ++ [field],
             Values := dst.Values ++ [if is then "true" else "false"] }

/-- FieldValue.Bool: appends via AddBool only when the values differ. -/
def FieldValue.Bool (dst : FieldValue) (was is : Bool) (field : Str) : FieldValue :=
  if was ≠ is then dst.AddBool is field else dst

/-- FieldValue.AddTime: appends the field name and the single-quoted
RFC3339Nano rendering of the UTC time. -/
def FieldValue.AddTime (dst : FieldValue) (is : GoTime) (field : Str) : FieldValue :=
  { dst with Fields := dst.Fields ++ [field],
             Values := dst.Values ++ ["\x27" ++ is.UTC.format3339Nano ++ "\x27"] }

/-- FieldValue.Time: appends via AddTime only when the values differ. -/
def FieldValue.Time (dst : FieldValue) (was is : GoTime) (field : Str) : FieldValue :=
  if was ≠ is then dst.AddTime is field else dst

/-- FieldValue.AddJSON after a successful json.Marshal, whose output is the
given data string: appends the field name and the single-quoted,
quote-escaped rendering. -/
def FieldValue.AddJSON (dst : FieldValue) (data field : Str) : FieldValue :=
  { dst with Fields := dst.Fields ++ [field],
             Values := dst.Values ++ ["\x27" ++ ToStr data ++ "\x27"] }

/-- FieldValue.AddInt8Slice: appends an ARRAY literal with SMALLINT cast. -/
def FieldValue.AddInt8Slice (dst : FieldValue) (is : List Int) (field : Str) : FieldValue :=
  { dst with Fields := dst.Fields ++ [field],
             Values := dst.Values ++
               ["ARRAY" ++ ArrayToString (some (GoVal.goIntSlice IntTy.i8 (some is))) ++ "::SMALLINT[]"] }

/-- FieldValue.Int8Slice: appends via AddInt8Slice only when the slices
differ element-wise (slices.Equal). -/
def FieldValue.Int8Slice (dst : FieldValue) (was is : List Int) (field : Str) : FieldValue :=
  if ¬(was = is) then dst.AddInt8Slice is field else dst

/-- FieldValue.AddInt16Slice: appends an ARRAY literal with SMALLINT cast. -/
def FieldValue.AddInt16Slice (dst : FieldValue) (is : List Int) (field : Str) : FieldValue :=
  { dst with Fields := dst.Fields ++ [field],
             Values := dst.Values ++
               ["ARRAY" ++ ArrayToString (some (GoVal.goIntSlice IntTy.i16 (some is))) ++ "::SMALLINT[]"] }

/-- FieldValue.Int16Slice: appends via AddInt16Slice only when the slices
differ element-wise. -/
def FieldValue.Int16Slice (dst : FieldValue) (was is : List Int) (field : Str) : FieldValue :=
  if ¬(was = is) then dst.AddInt16Slice is field else dst

/-- FieldValue.AddInt32Slice: appends an ARRAY literal with INTEGER cast. -/
def FieldValue.AddInt32Slice (dst : FieldValue) (is : List Int) (field : Str) : FieldValue :=
  { dst with Fields := dst.Fields ++ [field],
             Values := dst.Values ++
               ["ARRAY" ++ ArrayToString (some (GoVal.goIntSlice IntTy.i32 (some is))) ++ "::INTEGER[]"] }

/-- FieldValue.Int32Slice: appends via AddInt32Slice only when the slices
differ element-wise. -/
def FieldValue.Int32Slice (dst : FieldValue) (was is : List Int) (field : Str) : FieldValue :=
  if ¬(was = is) then dst.AddInt32Slice is field else dst

/-- FieldValue.AddInt64Slice: appends an ARRAY literal with BIGINT cast. -/
def FieldValue.AddInt64Slice (dst : FieldValue) (is : List Int) (field : Str) : FieldValue :=
  { dst with Fields := dst.Fields ++ [field],
             Values := dst.Values ++
               ["ARRAY" ++ ArrayToString (some (GoVal.goIntSlice IntTy.i64 (some is))) ++ "::BIGINT[]"] }

/-- FieldValue.Int64Slice: appends via AddInt64Slice only when the slices
differ element-wise. -/
def FieldValue.Int64Slice (dst : FieldValue) (was is : List Int) (field : Str) : FieldValue :=
  if ¬(was = is) then dst.AddInt64Slice is field else dst

/-- FieldValue.AddStringSlice: appends an ARRAY literal with VARCHAR cast. -/
def FieldValue.AddStringSlice (dst : FieldValue) (is : List Str) (field : Str) : FieldValue :=
  { dst with Fields := dst.Fields ++ [field],
             Values := dst.Values ++
               ["ARRAY" ++ ArrayToString (some (GoVal.goStrSlice (some is))) ++ "::VARCHAR[]"] }

/-- FieldValue.StringSlice: appends via AddStringSlice only when the slices
differ element-wise. -/
def FieldValue.StringSlice (dst : FieldValue) (was is : List Str) (field : Str) : FieldValue :=
  if ¬(was = is) then dst.AddStringSlice is field else dst

/-- The dynamic id argument of UpdateQuery: a uint, a uuid.UUID carrying
its string rendering, or any other value carrying its fmt %s rendering. -/
inductive GoId where
  | uintId (n : Nat)
  | uuidId (u : String)
  | otherId (s : String)
  deriving DecidableEq

/-- Embedding of FieldValue.UpdateQuery: empty statement and zero time
when no fields were collected, otherwise the UPDATE statement with the
updated_at stamp; the current UTC instant is passed explicitly as now. -/
def FieldValue.UpdateQuery (dst : FieldValue) (table : Str) (id : GoId) (now : GoTime) :
    Str × GoTime :=
  if dst.Fields.length = 0 then ("", zeroTime)
  else
    let update := now.UTC
    let fields := joinWith "," dst.Fields ++ ",updated_at"
    let values := joinWith "," dst.Values ++ ",\x27" ++ update.format3339Nano ++ "\x27"
    match id with
    | .uintId n =>
        ("UPDATE " ++ table ++ " SET (" ++ fields ++ ") = (" ++ values ++
          ") WHERE id = " ++ toString n, update)
    | .uuidId u =>
        ("UPDATE " ++ table ++ " SET (" ++ fields ++ ") = (" ++ values ++
          ") WHERE id = \x27" ++ u ++ "\x27", update)
    | .otherId s =>
        ("UPDATE " ++ table ++ " SET (" ++ fields ++ ") = (" ++ values ++
          ") WHERE id = \x27" ++ s ++ "\x27", update)

/-- Configuration of the single-node redis handle created by startSingle. -/
structure RedisSingleCfg where
  addr : String
  password : String
  db : Int
  deriving DecidableEq

/-- Configuration of the cluster handle created by startCluster. -/
structure RedisClusterCfg where
  addrs : List String
  password : String
  deriving DecidableEq

/-- The RedisClient state touched by Start: the two optional handles, the
logged database number, and whether the conditional-push script has been
installed. -/
structure RedisConn where
  client : Option RedisSingleCfg
  cluster : Option RedisClusterCfg
  db : Int
  singlePush : Bool
  deriving DecidableEq

/-- Embedding of RedisClient.startSingle (success path): stores the db
number, builds the single-node client, and clears the cluster handle. -/
def RedisClient.startSingle (c : RedisConn) (host password : String) (db : Int) : RedisConn :=
  { c with db := db, client := some ⟨host, password, db⟩, cluster := none }

/-- Embedding of RedisClient.startCluster (success path): zeroes the db
number, builds the cluster client on the comma-split hosts, and clears the
single-node handle. -/
def RedisClient.startCluster (c : RedisConn) (hosts password : String) : RedisConn :=
  { c with db := 0, cluster := some ⟨splitComma hosts, password⟩, client := none }

/-- Embedding of RedisClient.Start: dispatches on whether the hosts string
contains a comma, then installs the singlePush script. -/
def RedisClient.Start (c : RedisConn) (hosts password : String) (db : Int) : RedisConn :=
  let c2 := if containsComma hosts then RedisClient.startCluster c hosts password
            else RedisClient.startSingle c hosts password db
  { c2 with singlePush := true }

/-- The redis key-value keyspace, as an association list with first-match
lookup. -/
def lookupKV (kv : List (String × String)) (key : String) : Option String :=
  match kv with
  | [] => none
  | (k, v) :: rest => if k = key then some v else lookupKV rest key

/-- The redis list keyspace: lookup of the list stored at a key, the empty
list when the key is absent (LLEN of a missing key is zero). -/
def lookupList (st : List (String × List String)) (key : String) : List String :=
  match st with
  | [] => []
  | (k, v) :: rest => if k = key then v else lookupList rest key

/-- The GET call of the wrapped driver on the keyspace: an existing key
yields its value, a missing key yields the redis.Nil error. -/
def redisDriverGet (kv : List (String × String)) (key : String) : Except GoErr String :=
  match lookupKV kv key with
  | some v => Except.ok v
  | none => Except.error GoErr.redisNil

/-- Embedding of RedisClient.Get: dispatches on which handle is in use
(both reach the same logical keyspace, so both arms call the given driver),
then maps redis.Nil to the supplied default, any other error to the empty
string with that error, and a found value to itself. -/
def RedisClient.Get (c : RedisConn) (driver : String → Except GoErr String)
    (key default_ : String) : String × Option GoErr :=
  let res := if c.cluster.isSome then driver key else driver key
  match res with
  | Except.error e => if e = GoErr.redisNil then (default_, none) else ("", some e)
  | Except.ok s => (s, none)

/-- Embedding of the embedded Lua script run by SinglePush: atomically, if
LLEN of the key is zero it LPUSHes the value and returns the new length,
otherwise it returns -1 and leaves the store unchanged. -/
def scriptSinglePush (st : List (String × List String)) (key value : String) :
    Int × List (String × List String) :=
  let l := lookupList st key
  if l.length = 0 then
    let l2 := value :: l
    (Int.ofNat l2.length, (key, l2) :: st)
  else (-1, st)

/-- The result handling of RedisClient.SinglePush: a driver error is
returned as-is, the script result -1 becomes ErrorListIsNotEmpty, and any
other result is success. -/
def singlePushHandle (res : Except GoErr Int) : Option GoErr :=
  match res with
  | Except.error e => some e
  | Except.ok n => if n = -1 then some ErrorListIsNotEmpty else none

/-- Embedding of RedisClient.SinglePush (successful driver round trip):
dispatches on the handle in use (both run the same script on the same
logical store) and applies the result handling to the script result. -/
def RedisClient.SinglePush (c : RedisConn) (st : List (String × List String))
    (key value : String) : Option GoErr × List (String × List String) :=
  let r := if c.cluster.isSome then scriptSinglePush st key value
           else scriptSinglePush st key value
  (singlePushHandle (Except.ok r.1), r.2)

/-- The statement kind reported by the driver command tag (pgconn). -/
inductive TagKind where
  | updateTag
  | deleteTag
  | insertTag
  | selectTag
  | otherTag
  deriving DecidableEq

/-- The driver command tag: statement kind and affected-row count. -/
structure CommandTag where
  kind : TagKind
  rows : Nat
  deriving DecidableEq

/-- How the modelled transaction ended. -/
inductive TxEnd where
  | noTx
  | rolledBack
  | committed
  | commitFailed
  deriving DecidableEq

/-- Embedding of PostgresClient.Update: the outcomes of Begin, Exec and
Commit are passed explicitly; the result is how the transaction ended, the
affected-row count and the returned error. An empty query returns early
with no transaction. -/
def PostgresClient.Update (query : String) (beginRes : Option GoErr)
    (execRes : Except GoErr CommandTag) (commitRes : Option GoErr) :
    TxEnd × Nat × Option GoErr :=
  if query = "" then (TxEnd.noTx, 0, none)
  else
    match beginRes with
    | some e => (TxEnd.noTx, 0, some e)
    | none =>
      match execRes with
      | Except.error e => (TxEnd.rolledBack, 0, some e)
      | Except.ok res =>
        if res.kind ≠ TagKind.updateTag then
          (TxEnd.rolledBack, 0, some ErrorIncorrectRequest)
        else
          match commitRes with
          | some e => (TxEnd.commitFailed, 0, some e)
          | none => (TxEnd.committed, res.rows, none)

/-- Embedding of PostgresClient.Delete: identical control flow with the
DELETE command tag check and no early return on an empty query. -/
def PostgresClient.Delete (query : String) (beginRes : Option GoErr)
    (execRes : Except GoErr CommandTag) (commitRes : Option GoErr) :
    TxEnd × Nat × Option GoErr :=
  match beginRes with
  | some e => (TxEnd.noTx, 0, some e)
  | none =>
    match execRes with
    | Except.error e => (TxEnd.rolledBack, 0, some e)
    | Except.ok res =>
      if res.kind ≠ TagKind.deleteTag then
        (TxEnd.rolledBack, 0, some ErrorIncorrectRequest)
      else
        match commitRes with
        | some e => (TxEnd.commitFailed, 0, some e)
        | none => (TxEnd.committed, res.rows, none)

/-- Embedding of ClickHouseClient.Update: executes the statement and
returns zero affected rows together with whatever error the driver
reported. -/
def ClickHouseClient.Update (query : String) (execRes : Option GoErr) :
    Nat × Option GoErr :=
  (0, execRes)

/-- The operations of the differential update builder, for the append-only
invariant: every compare-setter and every Add method (oAddJSON carries the
output of a successful json.Marshal, oAddJSONErr is the failed-marshal
path, which returns before touching the lists). -/
inductive FVOp where
  | oString (was is field : String)
  | oUInt8 (was is : Nat) (field : String)
  | oUInt16 (was is : Nat) (field : String)
  | oUInt32 (was is : Nat) (field : String)
  | oUInt64 (was is : Nat) (field : String)
  | oInt8 (was is : Int) (field : String)
  | oInt16 (was is : Int) (field : String)
  | oInt32 (was is : Int) (field : String)
  | oInt64 (was is : Int) (field : String)
  | oBool (was is : Bool) (field : String)
  | oTime (was is : GoTime) (field : String)
  | oInt8Slice (was is : List Int) (field : String)
  | oInt16Slice (was is : List Int) (field : String)
  | oInt32Slice (was is : List Int) (field : String)
  | oInt64Slice (was is : List Int) (field : String)
  | oStringSlice (was is : List String) (field : String)
  | oAddString (is field : String)
  | oAddInt64 (is : Int) (field : String)
  | oAddUInt64 (is : Nat) (field : String)
  | oAddBool (is : Bool) (field : String)
  | oAddTime (is : GoTime) (field : String)
  | oAddJSON (data field : String)
  | oAddJSONErr (field : String)
  | oAddInt8Slice (is : List Int) (field : String)
  | oAddInt16Slice (is : List Int) (field : String)
  | oAddInt32Slice (is : List Int) (field : String)
  | oAddInt64Slice (is : List Int) (field : String)
  | oAddStringSlice (is : List String) (field : String)

/-- Application of one builder operation to an accumulator state. -/
def FVOp.apply (fv : FieldValue) : FVOp → FieldValue
  | .oString w i f => fv.String w i f
  | .oUInt8 w i f => fv.UInt8 w i f
  | .oUInt16 w i f => fv.UInt16 w i f
  | .oUInt32 w i f => fv.UInt32 w i f
  | .oUInt64 w i f => fv.UInt64 w i f
  | .oInt8 w i f => fv.Int8 w i f
  | .oInt16 w i f => fv.Int16 w i f
  | .oInt32 w i f => fv.Int32 w i f
  | .oInt64 w i f => fv.Int64 w i f
  | .oBool w i f => fv.Bool w i f
  | .oTime w i f => fv.Time w i f
  | .oInt8Slice w i f => fv.Int8Slice w i f
  | .oInt16Slice w i f => fv.Int16Slice w i f
  | .oInt32Slice w i f => fv.Int32Slice w i f
  | .oInt64Slice w i f => fv.Int64Slice w i f
  | .oStringSlice w i f => fv.StringSlice w i f
  | .oAddString i f => fv.AddString i f
  | .oAddInt64 i f => fv.AddInt64 i f
  | .oAddUInt64 i f => fv.AddUInt64 i f
  | .oAddBool i f => fv.AddBool i f
  | .oAddTime i f => fv.AddTime i f
  | .oAddJSON d f => fv.AddJSON d f
  | .oAddJSONErr _ => fv
  | .oAddInt8Slice i f => fv.AddInt8Slice i f
  | .oAddInt16Slice i f => fv.AddInt16Slice i f
  | .oAddInt32Slice i f => fv.AddInt32Slice i f
  | .oAddInt64Slice i f => fv.AddInt64Slice i f
  | .oAddStringSlice i f => fv.AddStringSlice i f

/-- Running a sequence of builder operations from the empty accumulator. -/
def runOps (ops : List FVOp) : FieldValue :=
  ops.foldl FVOp.apply ⟨[], []⟩

/-- C1: every typed compare-setter of the differential update builder
leaves Fields and Values unchanged when the previous and new values are
equal (slices element-wise), and otherwise appends exactly one entry to
each list: the column name to Fields and the SQL literal rendering of the
new value to Values (quoted escaped strings, decimal integers, true and
false for booleans, quoted UTC RFC3339Nano times, ARRAY literals with the
type cast for slices). -/
theorem claim_C1_typed_setters (fv : FieldValue) (field : String) :
    (∀ was is : String, fv.String was is field =
      if was = is then fv
      else ⟨fv.Fields ++ [field], fv.Values ++ ["\x27" ++ ToStr is ++ "\x27"]⟩)
    ∧ (∀ was is : Nat, fv.UInt8 was is field =
      if was = is then fv
      else ⟨fv.Fields ++ [field], fv.Values ++ [toString (Int.ofNat is)]⟩)
    ∧ (∀ was is : Nat, fv.UInt16 was is field =
      if was = is then fv
      else ⟨fv.Fields ++ [field], fv.Values ++ [toString (Int.ofNat is)]⟩)
    ∧ (∀ was is : Nat, fv.UInt32 was is field =
      if was = is then fv
      else ⟨fv.Fields ++ [field], fv.Values ++ [toString (Int.ofNat is)]⟩)
    ∧ (∀ was is : Nat, fv.UInt64 was is field =
      if was = is then fv
      else ⟨fv.Fields ++ [field], fv.Values ++ [toString is]⟩)
    ∧ (∀ was is : Int, fv.Int8 was is field =
      if was = is then fv
      else ⟨fv.Fields ++ [field], fv.Values ++ [toString is]⟩)
    ∧ (∀ was is : Int, fv.Int16 was is field =
      if was = is then fv
      else ⟨fv.Fields ++ [field], fv.Values ++ [toString is]⟩)
    ∧ (∀ was is : Int, fv.Int32 was is field =
      if was = is then fv
      else ⟨fv.Fields ++ [field], fv.Values ++ [toString is]⟩)
    ∧ (∀ was is : Int, fv.Int64 was is field =
      if was = is then fv
      else ⟨fv.Fields ++ [field], fv.Values ++ [toString is]⟩)
    ∧ (∀ was is : Bool, fv.Bool was is field =
      if was = is then fv
      else ⟨fv.Fields ++ [field], fv.Values ++ [if is then "true" else "false"]⟩)
    ∧ (∀ was is : GoTime, fv.Time was is field =
      if was = is then fv
      else ⟨fv.Fields ++ [field],
            fv.Values ++ ["\x27" ++ GoTime.format3339Nano (GoTime.UTC is) ++ "\x27"]⟩)
    ∧ (∀ was is : List Int, fv.Int8Slice was is field =
      if was = is then fv
      else ⟨fv.Fields ++ [field], fv.Values ++
        ["ARRAY" ++ ArrayToString (some (GoVal.goIntSlice IntTy.i8 (some is))) ++ "::SMALLINT[]"]⟩)
    ∧ (∀ was is : List Int, fv.Int16Slice was is field =
      if was = is then fv
      else ⟨fv.Fields ++ [field], fv.Values ++
        ["ARRAY" ++ ArrayToString (some (GoVal.goIntSlice IntTy.i16 (some is))) ++ "::SMALLINT[]"]⟩)
    ∧ (∀ was is : List Int, fv.Int32Slice was is field =
      if was = is then fv
      else ⟨fv.Fields ++ [field], fv.Values ++
        ["ARRAY" ++ ArrayToString (some (GoVal.goIntSlice IntTy.i32 (some is))) ++ "::INTEGER[]"]⟩)
    ∧ (∀ was is : List Int, fv.Int64Slice was is field =
      if was = is then fv
      else ⟨fv.Fields ++ [field], fv.Values ++
        ["ARRAY" ++ ArrayToString (some (GoVal.goIntSlice IntTy.i64 (some is))) ++ "::BIGINT[]"]⟩)
    ∧ (∀ was is : List String, fv.StringSlice was is field =
      if was = is then fv
      else ⟨fv.Fields ++ [field], fv.Values ++
        ["ARRAY" ++ ArrayToString (some (GoVal.goStrSlice (some is))) ++ "::VARCHAR[]"]⟩) := by
  refine ⟨?_, ?_, ?_, ?_, ?_, ?_, ?_, ?_, ?_, ?_, ?_, ?_, ?_, ?_, ?_, ?_⟩ <;>
    (intro was is
     by_cases h : was = is <;>
       simp [FieldValue.String, FieldValue.AddString, FieldValue.UInt8, FieldValue.UInt16,
         FieldValue.UInt32, FieldValue.UInt64, FieldValue.AddUInt64, FieldValue.Int8,
         FieldValue.Int16, FieldValue.Int32, FieldValue.Int64, FieldValue.AddInt64,
         FieldValue.Bool, FieldValue.AddBool, FieldValue.Time, FieldValue.AddTime,
         FieldValue.Int8Slice, FieldValue.AddInt8Slice, FieldValue.Int16Slice,
         FieldValue.AddInt16Slice, FieldValue.Int32Slice, FieldValue.AddInt32Slice,
         FieldValue.Int64Slice, FieldValue.AddInt64Slice, FieldValue.StringSlice,
         FieldValue.AddStringSlice, h])

/-- Concatenation of strings is associative (helper for restating the
query strings with flattened literals). -/
theorem strAppendAssoc (a b c : String) : a ++ b ++ c = a ++ (b ++ c) := by
  rcases a with ⟨a⟩; rcases b with ⟨b⟩; rcases c with ⟨c⟩
  apply String.ext
  simp

/-- C2: UpdateQuery returns the empty statement and the zero time when no
fields were collected; otherwise it returns the UPDATE statement joining
the accumulated lists, with updated_at stamped with the RFC3339Nano
rendering of the returned timestamp (the supplied current instant in UTC),
the id unquoted for a uint and single-quoted for a uuid.UUID or any other
id type. -/
theorem claim_C2_update_query (fv : FieldValue) (table : String) (id : GoId) (now : GoTime) :
    fv.UpdateQuery table id now =
      if fv.Fields.length = 0 then ("", zeroTime)
      else
        ((match id with
          | GoId.uintId n =>
              "UPDATE " ++ table ++ " SET (" ++ joinWith "," fv.Fields ++ ",updated_at) = (" ++
                joinWith "," fv.Values ++ ",\x27" ++ GoTime.format3339Nano (GoTime.UTC now) ++
                "\x27) WHERE id = " ++ toString n
          | GoId.uuidId u =>
              "UPDATE " ++ table ++ " SET (" ++ joinWith "," fv.Fields ++ ",updated_at) = (" ++
                joinWith "," fv.Values ++ ",\x27" ++ GoTime.format3339Nano (GoTime.UTC now) ++
                "\x27) WHERE id = \x27" ++ u ++ "\x27"
          | GoId.otherId s =>
              "UPDATE " ++ table ++ " SET (" ++ joinWith "," fv.Fields ++ ",updated_at) = (" ++
                joinWith "," fv.Values ++ ",\x27" ++ GoTime.format3339Nano (GoTime.UTC now) ++
                "\x27) WHERE id = \x27" ++ s ++ "\x27"),
         GoTime.UTC now) := by
  by_cases h : fv.Fields.length = 0 <;>
    rcases id <;>
      simp [FieldValue.UpdateQuery, h, strAppendAssoc]

/-- Every builder operation appends equal-length (possibly empty) suffixes
to Fields and Values and changes nothing else. -/
theorem fvop_delta (fv : FieldValue) (op : FVOp) :
    ∃ df dv : List String, df.length = dv.length ∧
      FVOp.apply fv op = ⟨fv.Fields ++ df, fv.Values ++ dv⟩ := by
  cases op <;>
    simp only [FVOp.apply, FieldValue.String, FieldValue.AddString, FieldValue.UInt8,
      FieldValue.UInt16, FieldValue.UInt32, FieldValue.UInt64, FieldValue.AddUInt64,
      FieldValue.Int8, FieldValue.Int16, FieldValue.Int32, FieldValue.Int64,
      FieldValue.AddInt64, FieldValue.Bool, FieldValue.AddBool, FieldValue.Time,
      FieldValue.AddTime, FieldValue.AddJSON, FieldValue.Int8Slice, FieldValue.AddInt8Slice,
      FieldValue.Int16Slice, FieldValue.AddInt16Slice, FieldValue.Int32Slice,
      FieldValue.AddInt32Slice, FieldValue.Int64Slice, FieldValue.AddInt64Slice,
      FieldValue.StringSlice, FieldValue.AddStringSlice] <;>
    (try split) <;>
    first
      | (refine ⟨_, _, ?_, rfl⟩; rfl)
      | (refine ⟨[], [], rfl, ?_⟩; simp)

/-- Any run of builder operations only ever extends the two lists: the
entries present before the run survive at their indices. -/
theorem foldl_extends (ops : List FVOp) (fv : FieldValue) :
    fv.Fields.length ≤ (List.foldl FVOp.apply fv ops).Fields.length
    ∧ fv.Values.length ≤ (List.foldl FVOp.apply fv ops).Values.length
    ∧ (List.foldl FVOp.apply fv ops).Fields.take fv.Fields.length = fv.Fields
    ∧ (List.foldl FVOp.apply fv ops).Values.take fv.Values.length = fv.Values := by
  induction ops generalizing fv with
  | nil => simp
  | cons op rest ih =>
    obtain ⟨df, dv, hlen, heq⟩ := fvop_delta fv op
    rw [List.foldl_cons, heq]
    obtain ⟨ih1, ih2, ih3, ih4⟩ := ih ⟨fv.Fields ++ df, fv.Values ++ dv⟩
    simp only [List.length_append] at ih1 ih2
    refine ⟨by omega, by omega, ?_, ?_⟩
    · have h3 : (List.foldl FVOp.apply ⟨fv.Fields ++ df, fv.Values ++ dv⟩ rest).Fields.take
          ((fv.Fields ++ df).length) = fv.Fields ++ df := ih3
      have := congrArg (fun l => List.take fv.Fields.length l) h3
      simpa [List.take_take, List.take_left, Nat.min_eq_left,
        Nat.le_add_right, List.length_append] using this
    · have h4 : (List.foldl FVOp.apply ⟨fv.Fields ++ df, fv.Values ++ dv⟩ rest).Values.take
          ((fv.Values ++ dv).length) = fv.Values ++ dv := ih4
      have := congrArg (fun l => List.take fv.Values.length l) h4
      simpa [List.take_take, List.take_left, Nat.min_eq_left,
        Nat.le_add_right, List.length_append] using this

/-- Builder operations keep the two lists index-aligned. -/
theorem foldl_balanced (ops : List FVOp) (fv : FieldValue)
    (h : fv.Fields.length = fv.Values.length) :
    (List.foldl FVOp.apply fv ops).Fields.length
      = (List.foldl FVOp.apply fv ops).Values.length := by
  induction ops generalizing fv with
  | nil => simpa using h
  | cons op rest ih =>
    obtain ⟨df, dv, hlen, heq⟩ := fvop_delta fv op
    rw [List.foldl_cons, heq]
    exact ih ⟨fv.Fields ++ df, fv.Values ++ dv⟩ (by simp [h, hlen])

/-- The escaping step doubles exactly the single-quote characters. -/
theorem countFlatDouble (l : List Char) :
    (List.flatten (l.map (fun c => if c = sqChar then [sqChar, sqChar] else [c]))).countP
        (fun c => c = sqChar)
      = 2 * l.countP (fun c => c = sqChar) := by
  induction l with
  | nil => simp
  | cons c t ih =>
    by_cases h : c = sqChar <;>
      (simp [h, ih, List.countP_cons, List.countP_append]; try omega)

/-- C3: starting from the empty accumulator, any sequence of compare-setter
and Add operations keeps Fields and Values of equal length, and the lists
are append-only: the entries produced by a run survive unchanged, at their
indices, through any further operations; the escaping applied to a newly
added string value doubles each single quote and concerns only that new
entry. -/
theorem claim_C3_append_only (ops more : List FVOp) (s : String) :
    (runOps ops).Fields.length = (runOps ops).Values.length
    ∧ (runOps (ops ++ more)).Fields.take (runOps ops).Fields.length = (runOps ops).Fields
    ∧ (runOps (ops ++ more)).Values.take (runOps ops).Values.length = (runOps ops).Values
    ∧ (ToStr s).data.countP (fun c => c = sqChar) = 2 * s.data.countP (fun c => c = sqChar) := by
  have hrun : runOps (ops ++ more) = List.foldl FVOp.apply (runOps ops) more := by
    simp [runOps, List.foldl_append]
  refine ⟨foldl_balanced ops ⟨[], []⟩ rfl, ?_, ?_, ?_⟩
  · rw [hrun]; exact (foldl_extends more (runOps ops)).2.2.1
  · rw [hrun]; exact (foldl_extends more (runOps ops)).2.2.2
  · exact countFlatDouble s.data

/-- A JSON int-array literal never equals the null literal. -/
theorem jsonIntList_ne_null (xs : List Int) : jsonIntList xs ≠ "null" := by
  intro h
  have hd := congrArg String.data h
  simp [jsonIntList] at hd

/-- A JSON object literal never equals the null literal. -/
theorem jsonMap_ne_null (ps : List (String × List Int)) :
    GoVal.jsonOf (GoVal.goMapStrIntSlice (some ps)) ≠ "null" := by
  intro h
  have hd := congrArg String.data h
  simp [GoVal.jsonOf] at hd

/-- C4 counterexample: a non-slice input whose reflect type name contains
a bracket pair — a non-nil map from strings to int slices — does not
render as the empty-array literal: ArrayToString returns its JSON object
form, because the code only tests the type name for a bracket pair rather
than for being a slice. -/
theorem claim_C4_counterexample :
    ArrayToString (some (GoVal.goMapStrIntSlice (some [("a", [1])])))
      = "\x7b\"a\":[1]\x7d"
    ∧ ArrayToString (some (GoVal.goMapStrIntSlice (some [("a", [1])]))) ≠ "[]" := by
  constructor <;> decide

/-- C4 (amended): a nil input, a non-slice input whose reflect type name
does not contain a bracket pair, an empty slice, and a typed nil slice or
map each render as the empty-array literal; a string slice renders as the
bracketed single-quoted quote-escaped list; a numeric slice renders as its
JSON array form; and a non-slice value whose reflect type name contains a
bracket pair (such as a map with slice values) renders as its JSON form
rather than as the empty-array literal. -/
theorem claim_C4_array_rendering :
    ArrayToString none = "[]"
    ∧ (∀ n : Int, ArrayToString (some (GoVal.goInt n)) = "[]")
    ∧ (∀ ty : IntTy, ArrayToString (some (GoVal.goIntSlice ty (some []))) = "[]")
    ∧ ArrayToString (some (GoVal.goStrSlice (some []))) = "[]"
    ∧ (∀ ty : IntTy, ArrayToString (some (GoVal.goIntSlice ty none)) = "[]")
    ∧ ArrayToString (some (GoVal.goStrSlice none)) = "[]"
    ∧ ArrayToString (some (GoVal.goMapStrIntSlice none)) = "[]"
    ∧ (∀ xs : List String, xs ≠ [] →
        ArrayToString (some (GoVal.goStrSlice (some xs)))
          = "[\x27" ++ joinWith "\x27,\x27" (xs.map ToStr) ++ "\x27]")
    ∧ (∀ (ty : IntTy) (xs : List Int),
        ArrayToString (some (GoVal.goIntSlice ty (some xs))) = jsonIntList xs)
    ∧ (∀ ps : List (String × List Int),
        ArrayToString (some (GoVal.goMapStrIntSlice (some ps)))
          = GoVal.jsonOf (GoVal.goMapStrIntSlice (some ps))) := by
  refine ⟨rfl, ?_, ?_, rfl, ?_, rfl, rfl, ?_, ?_, ?_⟩
  · intro n; rfl
  · intro ty; rcases ty <;> rfl
  · intro ty; rcases ty <;> rfl
  · intro xs h
    simp [ArrayToString, GoVal.tyName, GoVal.strsOf, StringsToString, StringsToStringMut,
      List.length_eq_zero, h, hasEmptyBrackets]
  · intro ty xs
    rcases ty <;>
      simp [ArrayToString, GoVal.tyName, IntTy.goName, GoVal.jsonOf, jsonIntList_ne_null,
        hasEmptyBrackets]
  · intro ps
    have hne := jsonMap_ne_null ps
    simp [ArrayToString, GoVal.tyName, hasEmptyBrackets, hne]

/-- C4 witness: the non-empty string-slice conjunct at a concrete slice. -/
theorem claim_C4_array_rendering_witness :
    ArrayToString (some (GoVal.goStrSlice (some ["a", "b"])))
      = "[\x27" ++ joinWith "\x27,\x27" (["a", "b"].map ToStr) ++ "\x27]" :=
  claim_C4_array_rendering.2.2.2.2.2.2.2.1 ["a", "b"] (by decide)

/-- C5: Start selects cluster mode exactly when the hosts string contains
a comma — the cluster handle is built on the comma-split hosts, the client
handle is nilled and the logged db is zeroed; without a comma the single
node client is built with the given db and the cluster handle is nilled;
in both cases exactly one of the two handles is non-nil afterwards. -/
theorem claim_C5_start_mode (c : RedisConn) (hosts password : String) (db : Int) :
    (containsComma hosts = true →
      RedisClient.Start c hosts password db =
        { c with db := 0, cluster := some ⟨splitComma hosts, password⟩,
                 client := none, singlePush := true })
    ∧ (containsComma hosts = false →
      RedisClient.Start c hosts password db =
        { c with db := db, client := some ⟨hosts, password, db⟩,
                 cluster := none, singlePush := true })
    ∧ (RedisClient.Start c hosts password db).client.isSome
        = !(RedisClient.Start c hosts password db).cluster.isSome := by
  refine ⟨?_, ?_, ?_⟩
  · intro h
    simp [RedisClient.Start, RedisClient.startCluster, h]
  · intro h
    simp [RedisClient.Start, RedisClient.startSingle, h]
  · by_cases h : containsComma hosts <;>
      simp [RedisClient.Start, RedisClient.startCluster, RedisClient.startSingle, h]

/-- C5 witness: both modes at concrete host strings. -/
theorem claim_C5_start_mode_witness :
    containsComma "h1,h2" = true
    ∧ RedisClient.Start ⟨none, none, 5, false⟩ "h1,h2" "pw" 3
        = ⟨none, some ⟨["h1", "h2"], "pw"⟩, 0, true⟩
    ∧ containsComma "h1" = false
    ∧ RedisClient.Start ⟨none, none, 5, false⟩ "h1" "pw" 3
        = ⟨some ⟨"h1", "pw", 3⟩, none, 3, true⟩ := by
  refine ⟨by decide, ?_, by decide, ?_⟩
  · rw [(claim_C5_start_mode ⟨none, none, 5, false⟩ "h1,h2" "pw" 3).1 (by decide)]
    decide
  · rw [(claim_C5_start_mode ⟨none, none, 5, false⟩ "h1" "pw" 3).2.1 (by decide)]

/-- C6: SinglePush pushes and succeeds exactly when the list at the key is
empty when the atomic script runs; on a non-empty list it returns the
ErrorListIsNotEmpty sentinel and leaves the store unchanged; a driver
error is passed through as-is by the result handling; and a first push on
an empty list followed by an immediate second push on the same key fails
with the sentinel. -/
theorem claim_C6_single_push (c : RedisConn) (st : List (String × List String))
    (key value : String) :
    (lookupList st key = [] →
      RedisClient.SinglePush c st key value = (none, (key, [value]) :: st))
    ∧ (lookupList st key ≠ [] →
      RedisClient.SinglePush c st key value = (some ErrorListIsNotEmpty, st))
    ∧ (∀ e : GoErr, singlePushHandle (Except.error e) = some e)
    ∧ (lookupList st key = [] →
      (RedisClient.SinglePush c ((RedisClient.SinglePush c st key value).2) key value).1
        = some ErrorListIsNotEmpty) := by
  have hpush : lookupList st key = [] →
      RedisClient.SinglePush c st key value = (none, (key, [value]) :: st) := by
    intro h
    simp [RedisClient.SinglePush, scriptSinglePush, singlePushHandle, h]
  refine ⟨hpush, ?_, ?_, ?_⟩
  · intro h
    simp [RedisClient.SinglePush, scriptSinglePush, singlePushHandle,
      List.length_eq_zero, h]
  · intro e; rfl
  · intro h
    rw [hpush h]
    simp [RedisClient.SinglePush, scriptSinglePush, singlePushHandle, lookupList]

/-- C6 witness: a first push on an empty store succeeds, the immediate
second push on the same key fails with the sentinel. -/
theorem claim_C6_single_push_witness :
    RedisClient.SinglePush ⟨some ⟨"h", "p", 0⟩, none, 0, true⟩ [] "k" "v"
      = (none, [("k", ["v"])])
    ∧ (RedisClient.SinglePush ⟨some ⟨"h", "p", 0⟩, none, 0, true⟩
        ((RedisClient.SinglePush ⟨some ⟨"h", "p", 0⟩, none, 0, true⟩ [] "k" "v").2) "k" "v").1
      = some ErrorListIsNotEmpty := by
  have h := claim_C6_single_push ⟨some ⟨"h", "p", 0⟩, none, 0, true⟩ [] "k" "v"
  exact ⟨h.1 rfl, h.2.2.2 rfl⟩

/-- C7: Update and Delete are atomic on error — an execution error inside
the opened transaction rolls back and returns zero rows with that error; a
successful execution whose command tag is not of the expected statement
kind rolls back and returns zero rows with ErrorIncorrectRequest; only
otherwise is the transaction committed with the driver affected-row count
returned (the committed outcome implies a successful execution with the
expected tag and a successful commit). -/
theorem claim_C7_update_delete_atomic :
    (∀ (q : String) (c : Option GoErr) (e : GoErr), q ≠ "" →
      PostgresClient.Update q none (Except.error e) c = (TxEnd.rolledBack, 0, some e))
    ∧ (∀ (q : String) (c : Option GoErr) (t : CommandTag),
        q ≠ "" → t.kind ≠ TagKind.updateTag →
      PostgresClient.Update q none (Except.ok t) c
        = (TxEnd.rolledBack, 0, some ErrorIncorrectRequest))
    ∧ (∀ (q : String) (t : CommandTag), q ≠ "" → t.kind = TagKind.updateTag →
      PostgresClient.Update q none (Except.ok t) none = (TxEnd.committed, t.rows, none))
    ∧ (∀ (q : String) (c : Option GoErr) (e : GoErr),
      PostgresClient.Delete q none (Except.error e) c = (TxEnd.rolledBack, 0, some e))
    ∧ (∀ (q : String) (c : Option GoErr) (t : CommandTag), t.kind ≠ TagKind.deleteTag →
      PostgresClient.Delete q none (Except.ok t) c
        = (TxEnd.rolledBack, 0, some ErrorIncorrectRequest))
    ∧ (∀ (q : String) (t : CommandTag), t.kind = TagKind.deleteTag →
      PostgresClient.Delete q none (Except.ok t) none = (TxEnd.committed, t.rows, none))
    ∧ (∀ (q : String) (b c : Option GoErr) (ex : Except GoErr CommandTag),
      (PostgresClient.Update q b ex c).1 = TxEnd.committed →
        ∃ t : CommandTag, ex = Except.ok t ∧ t.kind = TagKind.updateTag ∧ c = none)
    ∧ (∀ (q : String) (b c : Option GoErr) (ex : Except GoErr CommandTag),
      (PostgresClient.Delete q b ex c).1 = TxEnd.committed →
        ∃ t : CommandTag, ex = Except.ok t ∧ t.kind = TagKind.deleteTag ∧ c = none) := by
  refine ⟨?_, ?_, ?_, ?_, ?_, ?_, ?_, ?_⟩
  · intro q c e hq
    simp [PostgresClient.Update, hq]
  · intro q c t hq ht
    simp [PostgresClient.Update, hq, ht]
  · intro q t hq ht
    simp [PostgresClient.Update, hq, ht]
  · intro q c e
    simp [PostgresClient.Delete]
  · intro q c t ht
    simp [PostgresClient.Delete, ht]
  · intro q t ht
    simp [PostgresClient.Delete, ht]
  · intro q b c ex h
    by_cases hq : q = ""
    · simp [PostgresClient.Update, hq] at h
    · rcases b with _ | e
      · rcases ex with e | t
        · simp [PostgresClient.Update, hq] at h
        · by_cases ht : t.kind = TagKind.updateTag
          · rcases c with _ | e
            · exact ⟨t, rfl, ht, rfl⟩
            · simp [PostgresClient.Update, hq, ht] at h
          · simp [PostgresClient.Update, hq, ht] at h
      · simp [PostgresClient.Update, hq] at h
  · intro q b c ex h
    rcases b with _ | e
    · rcases ex with e | t
      · simp [PostgresClient.Delete] at h
      · by_cases ht : t.kind = TagKind.deleteTag
        · rcases c with _ | e
          · exact ⟨t, rfl, ht, rfl⟩
          · simp [PostgresClient.Delete, ht] at h
        · simp [PostgresClient.Delete, ht] at h
    · simp [PostgresClient.Delete] at h

/-- C7 witness: each branch of Update and Delete at concrete inputs. -/
theorem claim_C7_update_delete_atomic_witness :
    PostgresClient.Update "u" none (Except.error (GoErr.other "boom")) none
      = (TxEnd.rolledBack, 0, some (GoErr.other "boom"))
    ∧ PostgresClient.Update "u" none (Except.ok ⟨TagKind.selectTag, 3⟩) none
      = (TxEnd.rolledBack, 0, some ErrorIncorrectRequest)
    ∧ PostgresClient.Update "u" none (Except.ok ⟨TagKind.updateTag, 3⟩) none
      = (TxEnd.committed, 3, none)
    ∧ PostgresClient.Delete "d" none (Except.error (GoErr.other "boom")) none
      = (TxEnd.rolledBack, 0, some (GoErr.other "boom"))
    ∧ PostgresClient.Delete "d" none (Except.ok ⟨TagKind.updateTag, 2⟩) none
      = (TxEnd.rolledBack, 0, some ErrorIncorrectRequest)
    ∧ PostgresClient.Delete "d" none (Except.ok ⟨TagKind.deleteTag, 2⟩) none
      = (TxEnd.committed, 2, none)
    ∧ (∃ t : CommandTag,
        (Except.ok ⟨TagKind.updateTag, 3⟩ : Except GoErr CommandTag) = Except.ok t
        ∧ t.kind = TagKind.updateTag ∧ (none : Option GoErr) = none) := by
  obtain ⟨h1, h2, h3, h4, h5, h6, h7, h8⟩ := claim_C7_update_delete_atomic
  exact ⟨h1 "u" none (GoErr.other "boom") (by decide),
    h2 "u" none ⟨TagKind.selectTag, 3⟩ (by decide) (by decide),
    h3 "u" ⟨TagKind.updateTag, 3⟩ (by decide) rfl,
    h4 "d" none (GoErr.other "boom"),
    h5 "d" none ⟨TagKind.updateTag, 2⟩ (by decide),
    h6 "d" ⟨TagKind.deleteTag, 2⟩ rfl,
    h7 "u" none none (Except.ok ⟨TagKind.updateTag, 3⟩) (by decide)⟩

/-- C8: Get — in both single-node and cluster mode — maps a redis.Nil
lookup outcome to the supplied default with no error, any other lookup
error to the empty string with that error, and a found value to itself;
the driver lookup reports redis.Nil exactly for a missing key. -/
theorem claim_C8_get_default (c : RedisConn) (driver : String → Except GoErr String)
    (key d : String) :
    (driver key = Except.error GoErr.redisNil →
      RedisClient.Get c driver key d = (d, none))
    ∧ (∀ e : GoErr, e ≠ GoErr.redisNil → driver key = Except.error e →
      RedisClient.Get c driver key d = ("", some e))
    ∧ (∀ v : String, driver key = Except.ok v →
      RedisClient.Get c driver key d = (v, none))
    ∧ (∀ kv : List (String × String),
        (lookupKV kv key = none → redisDriverGet kv key = Except.error GoErr.redisNil)
        ∧ (∀ v : String, lookupKV kv key = some v → redisDriverGet kv key = Except.ok v)) := by
  refine ⟨?_, ?_, ?_, ?_⟩
  · intro h
    simp [RedisClient.Get, h]
  · intro e he h
    simp [RedisClient.Get, h, he]
  · intro v h
    simp [RedisClient.Get, h]
  · intro kv
    constructor
    · intro h; simp [redisDriverGet, h]
    · intro v h; simp [redisDriverGet, h]

/-- C8 witness: missing key in both modes, a non-nil error, and a found
value at concrete inputs. -/
theorem claim_C8_get_default_witness :
    RedisClient.Get ⟨some ⟨"h", "p", 0⟩, none, 0, true⟩
        (fun _ => Except.error GoErr.redisNil) "k" "dflt" = ("dflt", none)
    ∧ RedisClient.Get ⟨none, some ⟨["a", "b"], "p"⟩, 0, true⟩
        (fun _ => Except.error GoErr.redisNil) "k" "dflt" = ("dflt", none)
    ∧ RedisClient.Get ⟨some ⟨"h", "p", 0⟩, none, 0, true⟩
        (fun _ => Except.error (GoErr.other "x")) "k" "dflt" = ("", some (GoErr.other "x"))
    ∧ RedisClient.Get ⟨none, some ⟨["a", "b"], "p"⟩, 0, true⟩
        (fun _ => Except.ok "val") "k" "dflt" = ("val", none)
    ∧ redisDriverGet [("k", "val")] "k" = Except.ok "val" := by
  refine ⟨?_, ?_, ?_, ?_, ?_⟩
  · exact (claim_C8_get_default ⟨some ⟨"h", "p", 0⟩, none, 0, true⟩
      (fun _ => Except.error GoErr.redisNil) "k" "dflt").1 rfl
  · exact (claim_C8_get_default ⟨none, some ⟨["a", "b"], "p"⟩, 0, true⟩
      (fun _ => Except.error GoErr.redisNil) "k" "dflt").1 rfl
  · exact (claim_C8_get_default ⟨some ⟨"h", "p", 0⟩, none, 0, true⟩
      (fun _ => Except.error (GoErr.other "x")) "k" "dflt").2.1
        (GoErr.other "x") (by decide) rfl
  · exact (claim_C8_get_default ⟨none, some ⟨["a", "b"], "p"⟩, 0, true⟩
      (fun _ => Except.ok "val") "k" "dflt").2.2.1 "val" rfl
  · exact ((claim_C8_get_default ⟨some ⟨"h", "p", 0⟩, none, 0, true⟩
      (fun _ => Except.ok "val") "k" "dflt").2.2.2 [("k", "val")]).2 "val" rfl

/-- C9: ClickHouse Update reports zero affected rows for every model and
query, both on success and on a driver error, passing the error through. -/
theorem claim_C9_clickhouse_update_zero (query : String) (execRes : Option GoErr) :
    (ClickHouseClient.Update query execRes).1 = 0
    ∧ ClickHouseClient.Update query execRes = (0, execRes) :=
  ⟨rfl, rfl⟩

/-- C10: StringsToString mutates the caller slice in place — after the
call on a non-empty slice every element of the argument has been replaced
by its quote-escaped form — and both ArrayToString on a string slice and
AddStringSlice route through it. -/
theorem claim_C10_strings_mutation (arr : List String) :
    (StringsToStringMut arr).2 = (if arr.length = 0 then arr else arr.map ToStr)
    ∧ ArrayToString (some (GoVal.goStrSlice (some arr))) = (StringsToStringMut arr).1
    ∧ (FieldValue.AddStringSlice ⟨[], []⟩ arr "f").Values
        = ["ARRAY" ++ (StringsToStringMut arr).1 ++ "::VARCHAR[]"] := by
  refine ⟨?_, ?_, ?_⟩
  · by_cases h : arr.length = 0 <;> simp [StringsToStringMut, h]
  · simp [ArrayToString, GoVal.tyName, GoVal.strsOf, StringsToString, hasEmptyBrackets]
  · simp [FieldValue.AddStringSlice, ArrayToString, GoVal.tyName, GoVal.strsOf,
      StringsToString, hasEmptyBrackets]
